import Mathlib

/-!
Verification of the SVG → Android VectorDrawable converter
(`androidvector.py`, class `AndroidVector`).

Shallow embedding conventions:

* Machine floats are idealised as exact rationals (`ℚ`); all arithmetic the
  program performs (`1000.0/max(...)`, `opacity * fill_opacity`, affine
  transforms) is translated literally over `ℚ`.
* The external libraries the program imports (`cubicsuperpath`,
  `simpletransform`, `simplestyle`, `inkex` unit conversion) are out of scope
  per the spec ("treated as external collaborators ... assumed correct").
  Their parse/serialise pairs are modelled as identities on already-parsed
  values: an element's `transform` attribute is stored as the parsed 2×3
  matrix, its `style` attribute as the parsed key/value list, its `d`
  attribute as the parsed cubic-superpath structure.  `inkex.unittouu` /
  `uutounit` are modelled by a numeric stand-in (`unittouu`); no claim
  depends on their values.
* XML namespaces are elided: node tags are stored with the namespace already
  stripped (so the source's `_get_tag_name`, which is included below, acts as
  the identity on them), and the Android namespace prefix added by `_ns` is
  dropped from output attribute names.
* Python exceptions are modelled by `Except PyErr`: `float(...)` on a
  non-numeric string raises `ValueError`, `1000.0/0.0` raises
  `ZeroDivisionError`, and unbounded recursion hits CPython's recursion limit
  (`RecursionError`), modelled by an explicit fuel argument.
-/

/-- Python exceptions that the translated code can raise. -/
inductive PyErr
  | valueError
  | zeroDivisionError
  | recursionError
deriving DecidableEq, Repr

/-- A 2-D point; a `cubicsuperpath` coordinate pair `[x, y]`. -/
abbrev Pt : Type := ℚ × ℚ

/-- The `cubicsuperpath` structure produced by `csp.parsePath`:
a list of subpaths, each a list of control-point triples, each a list of
points (`p[i][j][k]` is a point, `p[i][j][k][l]` one coordinate). -/
abbrev CSPPath : Type := List (List (List Pt))

/-- A parsed 2×3 affine matrix as used by `simpletransform`:
`[[a, c, e], [b, d, f]]`, mapping `(x, y)` to `(a*x+c*y+e, b*x+d*y+f)`. -/
structure Mat where
  a : ℚ
  b : ℚ
  c : ℚ
  d : ℚ
  e : ℚ
  f : ℚ
deriving DecidableEq, Repr

/-- `simpletransform.applyTransformToPoint`. -/
def applyToPoint (m : Mat) (p : Pt) : Pt :=
  (m.a * p.1 + m.c * p.2 + m.e, m.b * p.1 + m.d * p.2 + m.f)

/-- `simpletransform.applyTransformToPath`: apply the matrix to every point. -/
def applyTransformToPath (m : Mat) (p : CSPPath) : CSPPath :=
  p.map (fun sub => sub.map (fun trip => trip.map (applyToPoint m)))

/-- The matrix `simpletransform.parseTransform` yields for `scale(s s)`. -/
def scaleMat (s : ℚ) : Mat := ⟨s, 0, 0, s, 0, 0⟩

/-- A parsed style attribute, as returned by `simplestyle.parseStyle`:
a key → value mapping (modelled as an association list built in document
order; later bindings overwrite earlier ones, like the Python dict). -/
abbrev Style : Type := List (String × String)

/-- Dict lookup `style[k]` / membership `k in style` (last binding wins). -/
def styleGet (sty : Style) (k : String) : Option String :=
  (sty.reverse.find? (fun kv => kv.1 == k)).map (fun kv => kv.2)

/-- An attribute value of the output tree.  The source stores everything as a
string; numeric values (`str(alpha)`, `str(width)`) are kept as exact
rationals and serialised path data (`csp.formatPath(p)`) as the path
structure itself, per the conventions above. -/
inductive AVal
  | s (v : String)
  | q (v : ℚ)
  | p (v : CSPPath)
deriving DecidableEq

/-- An output element (`lxml` element built by `_parse_child`): tag,
attributes in insertion order, child elements in append order. -/
inductive OutEl
  | mk (tag : String) (attrs : List (String × AVal)) (children : List OutEl)

instance {ε α : Type} [DecidableEq ε] [DecidableEq α] : DecidableEq (Except ε α) :=
  fun x y =>
    match x, y with
    | .error a, .error b => if h : a = b then .isTrue (by rw [h]) else .isFalse (by simp [h])
    | .error _, .ok _ => .isFalse (by simp)
    | .ok _, .error _ => .isFalse (by simp)
    | .ok a, .ok b => if h : a = b then .isTrue (by rw [h]) else .isFalse (by simp [h])

/-- Tag of an output element. -/
def OutEl.tag : OutEl → String
  | .mk t _ _ => t

/-- Attribute list of an output element. -/
def OutEl.attrs : OutEl → List (String × AVal)
  | .mk _ a _ => a

/-- Children of an output element. -/
def OutEl.children : OutEl → List OutEl
  | .mk _ _ c => c

/-- `el.get(k)`: first (unique) binding of an attribute key. -/
def attrLookup (l : List (String × AVal)) (k : String) : Option AVal :=
  (l.find? (fun kv => kv.1 == k)).map (fun kv => kv.2)

/-- A source (SVG) element: namespace-stripped tag, optional `id`,
optional parsed `transform`, optional parsed `style`, optional parsed path
data `d`, optional `xlink:href`, and child elements. -/
inductive SNode
  | mk (tag : String) (idA : Option String) (trA : Option Mat)
       (styA : Option Style) (dA : Option CSPPath) (hrefA : Option String)
       (children : List SNode)

/-- Tag of a source element (`node.tag`). -/
def SNode.tag : SNode → String
  | .mk t _ _ _ _ _ _ => t

/-- `node.get('id')`. -/
def SNode.idAttr : SNode → Option String
  | .mk _ i _ _ _ _ _ => i

/-- Parsed `transform` attribute (`none` if the attribute is absent). -/
def SNode.trAttr : SNode → Option Mat
  | .mk _ _ t _ _ _ _ => t

/-- Parsed `style` attribute (`none` if the attribute is absent). -/
def SNode.styAttr : SNode → Option Style
  | .mk _ _ _ s _ _ _ => s

/-- Parsed `d` attribute (`none` if the attribute is absent). -/
def SNode.dAttr : SNode → Option CSPPath
  | .mk _ _ _ _ d _ _ => d

/-- `xlink:href` attribute (`none` if absent). -/
def SNode.hrefAttr : SNode → Option String
  | .mk _ _ _ _ _ h _ => h

/-- Child elements, in document order. -/
def SNode.children : SNode → List SNode
  | .mk _ _ _ _ _ _ c => c

/-- Replace the element's transform: `svg.set('transform', ...)`. -/
def SNode.setTransform (n : SNode) (m : Mat) : SNode :=
  match n with
  | .mk t i _ s d h c => .mk t i (some m) s d h c

/-- The closing-brace character that ends an XML namespace prefix. -/
def rbrace : Char := Char.ofNat 125

/-- `_get_tag_name`: strip the `{namespace}` prefix from a tag
(Python `tag.split('}', 1)[1]`, i.e. everything after the first closing
brace; identity when no brace is present). -/
def getTagName (tag : String) : String :=
  let cs := tag.toList
  if cs.contains rbrace then String.mk ((cs.dropWhile (fun c => c ≠ rbrace)).tail)
  else tag

/-- Python `s.startswith(p)` (translated over character lists, which the
kernel can evaluate). -/
def pyStartswith (s p : String) : Bool := p.toList.isPrefixOf s.toList

/-- Python `s.endswith(p)`. -/
def pyEndswith (s p : String) : Bool := p.toList.isSuffixOf s.toList

/-- Helper for `pySplit`: accumulate the current token (reversed). -/
def pySplitAux : List Char → List Char → List String
  | [], acc => if acc.isEmpty then [] else [String.mk acc.reverse]
  | ch :: rest, acc =>
    if ch.isWhitespace then
      if acc.isEmpty then pySplitAux rest []
      else String.mk acc.reverse :: pySplitAux rest []
    else pySplitAux rest (ch :: acc)

/-- Python `s.split()` with no separator: split on whitespace runs,
discarding empty tokens. -/
def pySplit (s : String) : List String := pySplitAux s.toList []

/-- Numeric value of a digit string (all characters assumed digits). -/
def digitsToNat (cs : List Char) : ℕ :=
  cs.foldl (fun a ch => 10 * a + (ch.toNat - 48)) 0

/-- Python `float(s)` on finite decimal forms: optional surrounding
whitespace, optional sign, integer part and/or fraction, optional exponent.
`none` models a `ValueError`.  CPython's `float` additionally accepts
`inf`/`infinity`/`nan` spellings and underscored digit groups, which have
no counterpart in the rational idealisation; no theorem relies on a `none`
result except at concrete literals (such as `"x"`) that real `float` also
rejects. -/
def parseQ (s : String) : Option ℚ :=
  let cs0 := s.toList.dropWhile Char.isWhitespace
  let cs1 := (cs0.reverse.dropWhile Char.isWhitespace).reverse
  let sgn : ℚ := match cs1 with
    | '-' :: _ => -1
    | _ => 1
  let cs2 : List Char := match cs1 with
    | '-' :: t => t
    | '+' :: t => t
    | l => l
  let ip := cs2.takeWhile Char.isDigit
  let cs3 := cs2.dropWhile Char.isDigit
  let fp : List Char := match cs3 with
    | '.' :: t => t.takeWhile Char.isDigit
    | _ => []
  let cs4 : List Char := match cs3 with
    | '.' :: t => t.dropWhile Char.isDigit
    | l => l
  if ip.isEmpty && fp.isEmpty then none
  else
    let mant : ℚ := sgn * ((digitsToNat ip : ℚ) + (digitsToNat fp : ℚ) / (10 : ℚ) ^ fp.length)
    match cs4 with
    | [] => some mant
    | e :: t =>
      if e = 'e' ∨ e = 'E' then
        let esgn : ℤ := match t with
          | '-' :: _ => -1
          | _ => 1
        let t2 : List Char := match t with
          | '-' :: u => u
          | '+' :: u => u
          | u => u
        let ed := t2.takeWhile Char.isDigit
        let rest := t2.dropWhile Char.isDigit
        if ed.isEmpty || !rest.isEmpty then none
        else some (mant * (10 : ℚ) ^ (esgn * (digitsToNat ed : ℤ)))
      else none

/-- `float(s)` as an expression that raises: `.error .valueError` where
Python `float` raises `ValueError`. -/
def pyFloat (s : String) : Except PyErr ℚ :=
  match parseQ s with
  | some q => .ok q
  | none => .error .valueError

/-- Stand-in for the external `inkex` unit conversion
(`self.__unittouu` / `self.uutounit`), out of scope per the spec;
no claim depends on its values. -/
def unittouu (s : String) : ℚ := (parseQ s).getD 0

/-- Python `'%f' % q`: fixed-point formatting rounds to 6 decimal places
(the value `parseTransform` later reads back from the generated
`scale(%f %f)` string).  Tie behaviour at exact half-ulps is
platform-defined in C and irrelevant to every claim. -/
def fmtF6 (q : ℚ) : ℚ := (⌊q * 1000000 + 1 / 2⌋ : ℤ) / 1000000

/-- The elements the XPath prefix `{svg}defs/*` ranges over: all children of
all `defs` children of the document root, in document order. -/
def defsElems (doc : SNode) : List SNode :=
  (doc.children.filter (fun ch => getTagName ch.tag == "defs")).flatMap SNode.children

/-- `doc.find('{svg}defs/*[@id=ID]')`: first defs entry with the given id. -/
def findDef (doc : SNode) (i : String) : Option SNode :=
  (defsElems doc).find? (fun e => decide (e.idAttr = some i))

/-- `doc.find('{svg}defs/*[@id=ID]/{svg}stop')`: first `stop` child of a defs
entry with the given id, in document order. -/
def findStop (doc : SNode) (i : String) : Option SNode :=
  (((defsElems doc).filter (fun e => decide (e.idAttr = some i))).flatMap
    (fun e => e.children.filter (fun ch => getTagName ch.tag == "stop"))).head?

/-- One evaluation of the body of `AndroidVector._get_color`:
either a final answer (`.inl`: the resolved color, or `none` where the
Python code returns `None`) or the tail-recursive call
`self._get_color(style['stop-color'])` (`.inr` carries its argument). -/
def getColorStep (doc : SNode) (color : String) : Sum (Option String) String :=
  if pyStartswith color "#" then .inl (some color)
  else if color = "none" then .inl none
  else if pyStartswith color "url(#" && pyEndswith color ")" then
    let i := (color.drop 5).dropRight 1
    if pyStartswith i "linearGradient" || pyStartswith i "radialGradient" then
      match findDef doc i with
      | none => .inl none
      | some gradient =>
        match gradient.hrefAttr with
        | none => .inl none
        | some link0 =>
          let linkId := if pyStartswith link0 "#" then link0.drop 1 else link0
          match findStop doc linkId with
          | none => .inl none
          | some stop =>
            match stop.styAttr with
            | none => .inl none
            | some sty =>
              match styleGet sty "stop-color" with
              | none => .inl none
              | some sc => .inr sc
    else .inl none
  else .inl none

/-- `AndroidVector._get_color`, driven to completion.  The fuel argument
models CPython's recursion limit: a reference chase deeper than the limit
raises `RecursionError` instead of returning. -/
def getColorF (doc : SNode) : ℕ → String → Except PyErr (Option String)
  | 0, _ => .error .recursionError
  | fuel + 1, color =>
    match getColorStep doc color with
    | .inl r => .ok r
    | .inr next => getColorF doc fuel next

/-- CPython `repr(float)` falls back to exponential (`e-`) notation exactly
when the magnitude is nonzero and below `1e-4`; this is the membership test
`'e-' in str(x).lower()` under the rational idealisation of floats. -/
def hasEMinusRepr (x : ℚ) : Bool :=
  decide (x ≠ 0) && decide (|x| < 1 / 10000)

/-- The per-component action of the cleanup loop (`_parse_child` lines
179–184): a component whose string form uses `e-` notation becomes `0.0`. -/
def cleanComp (x : ℚ) : ℚ := if hasEMinusRepr x then 0 else x

/-- The cleanup loop itself: visit every coordinate of every point of every
triple of every subpath ("remove very small numbers"). -/
def cleanupSmall (p : CSPPath) : CSPPath :=
  p.map (fun sub => sub.map (fun trip => trip.map
    (fun pt => (cleanComp pt.1, cleanComp pt.2))))

/-- The transform-flattening loop (`_parse_child` lines 170–176): with the
node itself appended, iterate the ancestor list in reversed order (most
recently pushed first) and apply each declared transform to the geometry
immediately. -/
def applyTransformsLoop (chain : List SNode) (p : CSPPath) : CSPPath :=
  chain.reverse.foldl
    (fun q anc =>
      match anc.trAttr with
      | some t => applyTransformToPath t q
      | none => q) p

/-- Lines 200–202 of `_parse_child`: overall object opacity,
`1.0` by default, `float(style['opacity'])` when declared. -/
def opacityVal (sty : Style) : Except PyErr ℚ :=
  match styleGet sty "opacity" with
  | some s => pyFloat s
  | none => .ok 1

/-- Lines 205–208: the `fillColor` attribute ( set only when `fill` is
declared and `_get_color` resolves it). -/
def fillColorAttr (doc : SNode) (fuel : ℕ) (sty : Style) :
    Except PyErr (List (String × AVal)) :=
  match styleGet sty "fill" with
  | some cval =>
    match getColorF doc fuel cval with
    | .error err => .error err
    | .ok (some col) => .ok [("fillColor", AVal.s col)]
    | .ok none => .ok []
  | none => .ok []

/-- Lines 210–214: `fillAlpha`, set whenever `fill-opacity` or `opacity` is
declared, with value `opacity * fill-opacity` (factor 1.0 when absent). -/
def fillAlphaAttr (opacity : ℚ) (sty : Style) :
    Except PyErr (List (String × AVal)) :=
  if (styleGet sty "fill-opacity").isSome || (styleGet sty "opacity").isSome then
    match styleGet sty "fill-opacity" with
    | some s =>
      match pyFloat s with
      | .error err => .error err
      | .ok q => .ok [("fillAlpha", AVal.q (opacity * q))]
    | none => .ok [("fillAlpha", AVal.q opacity)]
  else .ok []

/-- Lines 216–220: `fillType` from `fill-rule` (only the two known values
are mapped). -/
def fillTypeAttr (sty : Style) : List (String × AVal) :=
  match styleGet sty "fill-rule" with
  | some v =>
    if v = "evenodd" then [("fillType", AVal.s "evenOdd")]
    else if v = "nonzero" then [("fillType", AVal.s "nonZero")]
    else []
  | none => []

/-- Lines 223–226: the `strokeColor` attribute. -/
def strokeColorAttr (doc : SNode) (fuel : ℕ) (sty : Style) :
    Except PyErr (List (String × AVal)) :=
  match styleGet sty "stroke" with
  | some cval =>
    match getColorF doc fuel cval with
    | .error err => .error err
    | .ok (some col) => .ok [("strokeColor", AVal.s col)]
    | .ok none => .ok []
  | none => .ok []

/-- Lines 228–229: `strokeWidth` via the unit converter. -/
def strokeWidthAttr (sty : Style) : List (String × AVal) :=
  match styleGet sty "stroke-width" with
  | some v => [("strokeWidth", AVal.q (unittouu v))]
  | none => []

/-- Lines 231–235: `strokeAlpha`, the mirror of `fillAlpha`. -/
def strokeAlphaAttr (opacity : ℚ) (sty : Style) :
    Except PyErr (List (String × AVal)) :=
  if (styleGet sty "stroke-opacity").isSome || (styleGet sty "opacity").isSome then
    match styleGet sty "stroke-opacity" with
    | some s =>
      match pyFloat s with
      | .error err => .error err
      | .ok q => .ok [("strokeAlpha", AVal.q (opacity * q))]
    | none => .ok [("strokeAlpha", AVal.q opacity)]
  else .ok []

/-- Lines 237–238: `strokeLineCap` passthrough. -/
def strokeCapAttr (sty : Style) : List (String × AVal) :=
  match styleGet sty "stroke-linecap" with
  | some v => [("strokeLineCap", AVal.s v)]
  | none => []

/-- Lines 240–241: `strokeLineJoin` passthrough. -/
def strokeJoinAttr (sty : Style) : List (String × AVal) :=
  match styleGet sty "stroke-linejoin" with
  | some v => [("strokeLineJoin", AVal.s v)]
  | none => []

/-- Lines 243–244: `strokeMiterLimit` passthrough. -/
def strokeMiterAttr (sty : Style) : List (String × AVal) :=
  match styleGet sty "stroke-miterlimit" with
  | some v => [("strokeMiterLimit", AVal.s v)]
  | none => []

/-- The style-mapping block of `_parse_child` (lines 196–244), producing the
style attributes in the exact insertion order of the source's `el.set`
calls, with Python's exception points evaluated in source order.
`fuel` is the recursion budget handed to `_get_color`. -/
def styleAttrs (doc : SNode) (fuel : ℕ) (sty : Style) :
    Except PyErr (List (String × AVal)) :=
  match opacityVal sty with
  | .error err => .error err
  | .ok opacity =>
    match fillColorAttr doc fuel sty with
    | .error err => .error err
    | .ok fillColorA =>
      match fillAlphaAttr opacity sty with
      | .error err => .error err
      | .ok fillAlphaA =>
        match strokeColorAttr doc fuel sty with
        | .error err => .error err
        | .ok strokeColorA =>
          match strokeAlphaAttr opacity sty with
          | .error err => .error err
          | .ok strokeAlphaA =>
            .ok (fillColorA ++ fillAlphaA ++ fillTypeAttr sty ++ strokeColorA ++
                 strokeWidthAttr sty ++ strokeAlphaA ++ strokeCapAttr sty ++
                 strokeJoinAttr sty ++ strokeMiterAttr sty)

/-- The loop body of the group branch of `_parse_child` (lines 151–157):
parse each child in order, appending the non-`None` results, threading the
identity counter. -/
def parseChildList
    (pc : SNode → List SNode → ℕ → Except PyErr (Option OutEl × ℕ)) :
    List SNode → List SNode → ℕ → Except PyErr (List OutEl × ℕ)
  | [], _, uid => .ok ([], uid)
  | child :: rest, ancestors, uid =>
    match pc child ancestors uid with
    | .error err => .error err
    | .ok (sub, uid1) =>
      match parseChildList pc rest ancestors uid1 with
      | .error err => .error err
      | .ok (subs, uid2) => .ok (sub.toList ++ subs, uid2)

/-- `AndroidVector._parse_child`.  `doc` is `self.document`'s root (used by
`_get_color` lookups), `fuel` the recursion budget (CPython recursion
limit), `ancestors` the ancestor stack, `uid` the value of
`self.unique_id` on entry; returns the produced element (or `none` for an
unsupported/empty node) and the counter on exit. -/
def parseChild (doc : SNode) : ℕ → SNode → List SNode → ℕ →
    Except PyErr (Option OutEl × ℕ)
  | 0, _, _, _ => .error .recursionError
  | fuel + 1, src, ancestors, uid =>
    let t := getTagName src.tag
    if t = "g" ∨ t = "path" then
      let elTag := if t = "g" then "group" else "path"
      let np : String × ℕ :=
        match src.idAttr with
        | some n => (n, uid)
        | none => (elTag ++ toString uid, uid + 1)
      if t = "g" then
        match parseChildList (parseChild doc fuel) src.children
            (ancestors ++ [src]) np.2 with
        | .error err => .error err
        | .ok (subs, uid2) =>
          .ok (some (.mk "group" [("name", AVal.s np.1)] subs), uid2)
      else
        match src.dAttr with
        | none => .ok (none, np.2)
        | some p0 =>
          let p2 := cleanupSmall (applyTransformsLoop (ancestors ++ [src]) p0)
          let base := [("name", AVal.s np.1), ("pathData", AVal.p p2)]
          match src.styAttr with
          | none =>
            .ok (some (.mk "path"
              (base ++ [("strokeColor", AVal.s "#000000"),
                        ("strokeWidth", AVal.s "1"),
                        ("fillColor", AVal.s "#FFFFFF")]) []), np.2)
          | some sty =>
            match styleAttrs doc fuel sty with
            | .error err => .error err
            | .ok sa => .ok (some (.mk "path" (base ++ sa) []), np.2)
    else .ok (none, uid)

/-- How a run of `AndroidVector.effect` can end without producing an element
tree: one of the three/four `inkex.errormsg` early returns, or an uncaught
Python exception. -/
inductive ConvErr
  | widthMissing
  | heightMissing
  | viewBoxMissing
  | viewBoxFormat
  | uncaught (e : PyErr)
deriving DecidableEq, Repr

/-- The literal user-facing message of each `inkex.errormsg` call in
`effect` (`none` for an uncaught exception, which has no such message). -/
def ConvErr.message : ConvErr → Option String
  | .widthMissing => some "The document width attribute is missing."
  | .heightMissing => some "The document height attribute is missing."
  | .viewBoxMissing => some "The document viewBox attribute is missing."
  | .viewBoxFormat => some "The document viewBox attribute is not formatted correctly."
  | .uncaught _ => none

/-- The document handed to `effect`: the root element plus its sizing
attributes `width`, `height` and `viewBox` (kept as raw strings, since the
core parses them itself). -/
structure SvgDoc where
  width : Option String
  height : Option String
  viewBox : Option String
  root : SNode

/-- The saved element tree (`self.etree`): the `vector` root element's
attributes and its appended children. -/
structure VectorOut where
  name : String
  widthAttr : String
  heightAttr : String
  viewportWidth : ℚ
  viewportHeight : ℚ
  children : List OutEl

/-- The root-children loop of `effect` (lines 88–94): only `g` and `path`
children are handed to `_parse_child`; everything else is ignored without
touching the counter. -/
def effectLoop
    (pc : SNode → List SNode → ℕ → Except PyErr (Option OutEl × ℕ)) :
    List SNode → List SNode → ℕ → Except PyErr (List OutEl × ℕ)
  | [], _, uid => .ok ([], uid)
  | el :: rest, ancestors, uid =>
    let t := getTagName el.tag
    if t = "g" ∨ t = "path" then
      match pc el ancestors uid with
      | .error err => .error err
      | .ok (sub, uid1) =>
        match effectLoop pc rest ancestors uid1 with
        | .error err => .error err
        | .ok (subs, uid2) => .ok (sub.toList ++ subs, uid2)
    else effectLoop pc rest ancestors uid

/-- `AndroidVector.effect`.  `recLimit` is the CPython recursion budget
available to `_parse_child` / `_get_color`.  A `.error` result means the
conversion ended without storing any element tree (`self.etree` unset):
either an `inkex.errormsg` early return or an uncaught exception. -/
def effect (doc : SvgDoc) (recLimit : ℕ) : Except ConvErr VectorOut :=
  let name := doc.root.idAttr.getD "svgimage"
  match doc.width with
  | none => .error .widthMissing
  | some w =>
    match doc.height with
    | none => .error .heightMissing
    | some h =>
      let widthAttr := toString (unittouu w) ++ "dp"
      let heightAttr := toString (unittouu h) ++ "dp"
      match doc.viewBox with
      | none => .error .viewBoxMissing
      | some vb =>
        match pySplit vb with
        | [_, _, tok2, tok3] =>
          match parseQ tok2, parseQ tok3 with
          | some viewWidth, some viewHeight =>
            if max viewWidth viewHeight = 0 then .error (.uncaught .zeroDivisionError)
            else
              let scaleFact := 1000 / max viewWidth viewHeight
              let root' := doc.root.setTransform (scaleMat (fmtF6 scaleFact))
              match effectLoop (parseChild root' recLimit) root'.children [root'] 0 with
              | .error err => .error (.uncaught err)
              | .ok (subs, _) =>
                .ok { name := name, widthAttr := widthAttr, heightAttr := heightAttr,
                      viewportWidth := viewWidth * scaleFact,
                      viewportHeight := viewHeight * scaleFact,
                      children := subs }
          | _, _ => .error (.uncaught .valueError)
        | _ => .error .viewBoxFormat

/-- Modelled from the spec (§4.2), for comparison with the code's loop:
"iterate the stack from the end (most recently pushed, i.e., the node
itself) backward to the start (the document root), and for every ancestor
that declares a transform, apply it to the geometry immediately".  The
argument lists the declared transforms in that leaf-to-root order. -/
def specLeafToRoot (ts : List Mat) (p : CSPPath) : CSPPath :=
  match ts with
  | [] => p
  | t :: rest => specLeafToRoot rest (applyTransformToPath t p)

/-- The declared transforms of a chain of elements, in the chain's order. -/
def declaredTransforms (chain : List SNode) : List Mat :=
  chain.filterMap SNode.trAttr

/-- Spec-side instrument for claim C7, list part: the counter values
`parseChildList` consumes, with the counter on exit. -/
def synthChildList (sy : SNode → ℕ → Option (List ℕ × ℕ)) :
    List SNode → ℕ → Option (List ℕ × ℕ)
  | [], uid => some ([], uid)
  | child :: rest, uid =>
    match sy child uid with
    | none => none
    | some (l1, uid1) =>
      match synthChildList sy rest uid1 with
      | none => none
      | some (l2, uid2) => some (l1 ++ l2, uid2)

/-- Spec-side instrument for claim C7: the sequence of counter values
`parseChild` consumes for synthesized names (in assignment order), and the
counter on exit; mirrors exactly the counter behaviour of `parseChild`
(`none` when the fuel would be exhausted). -/
def synthSeq : ℕ → SNode → ℕ → Option (List ℕ × ℕ)
  | 0, _, _ => none
  | fuel + 1, src, uid =>
    let t := getTagName src.tag
    if t = "g" ∨ t = "path" then
      let np : List ℕ × ℕ :=
        match src.idAttr with
        | some _ => ([], uid)
        | none => ([uid], uid + 1)
      if t = "g" then
        match synthChildList (synthSeq fuel) src.children np.2 with
        | none => none
        | some (l, uid2) => some (np.1 ++ l, uid2)
      else some (np.1, np.2)
    else some ([], uid)

/-- Spec-side instrument for claim C7, root loop: counter values consumed by
`effectLoop` across the root's `g`/`path` children. -/
def synthTopList (sy : SNode → ℕ → Option (List ℕ × ℕ)) :
    List SNode → ℕ → Option (List ℕ × ℕ)
  | [], uid => some ([], uid)
  | el :: rest, uid =>
    let t := getTagName el.tag
    if t = "g" ∨ t = "path" then
      match sy el uid with
      | none => none
      | some (l1, uid1) =>
        match synthTopList sy rest uid1 with
        | none => none
        | some (l2, uid2) => some (l1 ++ l2, uid2)
    else synthTopList sy rest uid

/-- Test fixture: an empty SVG root element. -/
def bareRoot : SNode := .mk "svg" none none none none none []

/-- Test fixture for C4: a defs entry whose id has the `linearGradient`
prefix but whose tag is `rect` (not a gradient), with an `xlink:href` to a
second entry owning a stop with a concrete stop color. -/
def c4doc : SNode := .mk "svg" none none none none none
  [ .mk "defs" none none none none none
    [ .mk "rect" (some "linearGradientX") none none none (some "#other") [],
      .mk "linearGradient" (some "other") none none none none
        [ .mk "stop" none none (some [("stop-color", "#112233")]) none none [] ] ] ]

/-- Test fixture for C9: a cyclic gradient reference — `linearGradientA`
links to `B`, whose stop's `stop-color` refers back to `linearGradientA`. -/
def c9cyc : SNode := .mk "svg" none none none none none
  [ .mk "defs" none none none none none
    [ .mk "linearGradient" (some "linearGradientA") none none none (some "#B") [],
      .mk "linearGradient" (some "B") none none none none
        [ .mk "stop" none none (some [("stop-color", "url(#linearGradientA)")]) none none [] ] ] ]

/-- Test fixture for C9: an acyclic gradient, `linearGradientG` linking to
`B2` whose first stop resolves to a concrete color. -/
def c9wG : SNode := .mk "linearGradient" (some "linearGradientG") none none none (some "#B2") []

/-- The linked gradient of [`c9wG`], carrying the stop. -/
def c9wB2 : SNode := .mk "linearGradient" (some "B2") none none none none
  [ .mk "stop" none none (some [("stop-color", "#00ff00")]) none none [] ]

/-- The acyclic C9 document. -/
def c9wdoc : SNode := .mk "svg" none none none none none
  [ .mk "defs" none none none none none [c9wG, c9wB2] ]

/-- A rank function witnessing that every reference chase in [`c9wdoc`]
strictly descends: url-references rank 1, everything else 0. -/
def c9rank (c : String) : ℕ := if pyStartswith c "url(#" then 1 else 0

/-- Test fixture for C5: the spec's example style
`fill:#ff0000;fill-opacity:0.5;opacity:0.5`, parsed. -/
def c5sty : Style := [("fill", "#ff0000"), ("fill-opacity", "0.5"), ("opacity", "0.5")]

/-- Test fixture for C5: a path carrying [`c5sty`]. -/
def c5node : SNode := .mk "path" (some "p") none (some c5sty) (some [[[(0, 0)]]]) none []

/-- Test fixture for C8: a path with geometry but no style attribute. -/
def c8node : SNode := .mk "path" none none none (some [[[(1, 2)]]]) none []

/-- Test fixture for C7: an unlabeled group owning an unlabeled path and an
unlabeled group that nests one more unlabeled group (so unlabeled nodes sit
at three different depths). -/
def c7tree : SNode := .mk "g" none none none none none
  [ .mk "path" none none none (some [[[(0, 0)]]]) none [],
    .mk "g" none none none none none [ .mk "g" none none none none none [] ] ]

/-- Rotation by 90 degrees, `matrix(0 1 -1 0 0 0)`: `(x, y) ↦ (-y, x)`. -/
def rot90 : Mat := ⟨0, 1, -1, 0, 0, 0⟩

/-- Non-uniform scale `scale(2 1)`: `(x, y) ↦ (2x, y)`. -/
def scale21 : Mat := ⟨2, 0, 0, 1, 0, 0⟩

/-- Test fixture for C1: a path declaring its own rotation. -/
def c1path : SNode := .mk "path" (some "p1") (some rot90) none (some [[[(1, 0)]]]) none []

/-- Test fixture for C1: a group declaring a non-commuting scale, owning
[`c1path`]. -/
def c1group : SNode := .mk "g" (some "gA") (some scale21) none none none [c1path]

/-- Test fixture for C1: [`c1group`] nested in a 1000×1000 viewBox document
(document scale factor 1). -/
def c1doc : SvgDoc := SvgDoc.mk (some "100") (some "100") (some "0 0 1000 1000")
  (.mk "svg" (some "doc") none none none none [c1group])

/-- Test fixture for C6: a path whose x-coordinate is small enough that its
Python string form would use `e-` notation. -/
def c6node : SNode := .mk "path" (some "tiny") none none
  (some [[[(12 / 10 ^ 15, 3)]]]) none []

attribute [local semireducible] Rat.add Rat.mul Rat.inv Rat.sub

/-- C10: a well-formed viewBox whose width and height are both zero reaches
the unguarded scale division `1000.0 / max(view_width, view_height)` and the
conversion dies with an uncaught `ZeroDivisionError`: it neither completes
nor reports one of the fatal validation messages (the error constructor
carries no user-facing message), and no element tree is stored. -/
theorem c10_divzero_crash :
    pySplit "0 0 0 0" = ["0", "0", "0", "0"] ∧
    parseQ "0" = some 0 ∧
    effect (SvgDoc.mk (some "10") (some "10") (some "0 0 0 0")
      (SNode.mk "svg" none none none none none [])) 10 =
      .error (.uncaught .zeroDivisionError) ∧
    ConvErr.message (.uncaught .zeroDivisionError) = none :=
  ⟨by decide, by decide, rfl, rfl⟩

/-- C3 (amended): conversion aborts with the corresponding specific message
when width, height or viewBox is missing, or when the viewBox does not split
into exactly 4 whitespace-separated tokens.  Token numericness is not part
of the validation: only the count is checked, and only the third and fourth
tokens are ever converted, so a 4-token viewBox whose non-numeric tokens
are the first two (here `a b 100 100`) converts successfully and produces a
full output tree, while a non-numeric third or fourth token escapes the
message and dies in the unvalidated `float()` call (the counterexample).
The final conjunct block records the literal message texts. -/
theorem c3_validation_amended :
    (∀ (doc : SvgDoc) (rl : ℕ),
      (doc.width = none → effect doc rl = .error .widthMissing) ∧
      (∀ w, doc.width = some w → doc.height = none →
        effect doc rl = .error .heightMissing) ∧
      (∀ w h, doc.width = some w → doc.height = some h → doc.viewBox = none →
        effect doc rl = .error .viewBoxMissing) ∧
      (∀ w h vb, doc.width = some w → doc.height = some h →
        doc.viewBox = some vb → (pySplit vb).length ≠ 4 →
        effect doc rl = .error .viewBoxFormat)) ∧
    effect (SvgDoc.mk (some "5") (some "5") (some "a b 100 100") bareRoot) 3 =
      .ok (VectorOut.mk "svgimage" "5dp" "5dp" 1000 1000 []) ∧
    (ConvErr.message .widthMissing = some "The document width attribute is missing." ∧
     ConvErr.message .heightMissing = some "The document height attribute is missing." ∧
     ConvErr.message .viewBoxMissing = some "The document viewBox attribute is missing." ∧
     ConvErr.message .viewBoxFormat =
       some "The document viewBox attribute is not formatted correctly.") := by
  refine ⟨?_, rfl, rfl, rfl, rfl, rfl⟩
  intro doc rl
  obtain ⟨ow, oh, ovb, root⟩ := doc
  refine ⟨?_, ?_, ?_, ?_⟩
  · intro hw
    subst hw
    rfl
  · intro w hw hh
    subst hw
    subst hh
    rfl
  · intro w h hw hh hv
    subst hw
    subst hh
    subst hv
    rfl
  · intro w h vb hw hh hv hlen
    subst hw
    subst hh
    subst hv
    simp only [effect]
    rcases hl : pySplit vb with _ | ⟨a, _ | ⟨b, _ | ⟨c, _ | ⟨d, _ | ⟨e, rest⟩⟩⟩⟩⟩
    all_goals first
      | rfl
      | (rw [hl] at hlen; simp at hlen)

/-- C3 counterexample: two documents with width and height present whose
viewBox is exactly 4 whitespace-separated tokens, not all numeric — the
premise class of the claim, which asserts conversion aborts with the
specific viewBox message and produces no output tree at all.  With the
non-numeric token in third or fourth position (`0 0 x y`) the code instead
dies with an uncaught `ValueError` carrying no user-facing message; with
the non-numeric tokens in first and second position (`a b 100 100`) the
code neither aborts nor reports anything — it completes and produces a
full output element tree, since only the third and fourth tokens are ever
converted. -/
theorem c3_counterexample :
    pySplit "0 0 x y" = ["0", "0", "x", "y"] ∧
    parseQ "x" = none ∧
    effect (SvgDoc.mk (some "1") (some "1") (some "0 0 x y") bareRoot) 7 =
      .error (.uncaught .valueError) ∧
    ConvErr.uncaught .valueError ≠ ConvErr.viewBoxFormat ∧
    ConvErr.message (.uncaught .valueError) = none ∧
    pySplit "a b 100 100" = ["a", "b", "100", "100"] ∧
    parseQ "a" = none ∧
    effect (SvgDoc.mk (some "1") (some "1") (some "a b 100 100") bareRoot) 7 =
      .ok (VectorOut.mk "svgimage" "1dp" "1dp" 1000 1000 []) :=
  ⟨by decide, by decide, rfl, by decide, rfl, by decide, by decide, rfl⟩

/-- C3 witness: the amended theorem applied to one concrete document per
validation clause. -/
theorem c3_validation_amended_witness :
    effect (SvgDoc.mk none none none bareRoot) 1 = .error .widthMissing ∧
    effect (SvgDoc.mk (some "5") none none bareRoot) 1 = .error .heightMissing ∧
    effect (SvgDoc.mk (some "5") (some "5") none bareRoot) 1 =
      .error .viewBoxMissing ∧
    effect (SvgDoc.mk (some "5") (some "5") (some "0 0 9") bareRoot) 1 =
      .error .viewBoxFormat :=
  ⟨(c3_validation_amended.1 _ 1).1 rfl,
   (c3_validation_amended.1 _ 1).2.1 "5" rfl rfl,
   (c3_validation_amended.1 _ 1).2.2.1 "5" "5" rfl rfl rfl,
   (c3_validation_amended.1 _ 1).2.2.2 "5" "5" "0 0 9" rfl rfl rfl (by decide)⟩

/-- C2: whenever `effect` saves an element tree, the scale factor is
`1000 / max(viewWidth, viewHeight)` for the parsed third and fourth viewBox
tokens, and the emitted `viewportWidth` / `viewportHeight` attributes are
exactly the viewBox width and height multiplied by that factor. -/
theorem c2_scale_viewport :
    ∀ (doc : SvgDoc) (rl : ℕ) (out : VectorOut) (vb t0 t1 t2 t3 : String) (vw vh : ℚ),
    doc.viewBox = some vb → pySplit vb = [t0, t1, t2, t3] →
    parseQ t2 = some vw → parseQ t3 = some vh →
    effect doc rl = .ok out →
    out.viewportWidth = vw * (1000 / max vw vh) ∧
    out.viewportHeight = vh * (1000 / max vw vh) := by
  intro doc rl out vb t0 t1 t2 t3 vw vh hvb hsplit hq2 hq3 hok
  obtain ⟨ow, oh, ovb, root⟩ := doc
  rcases ow with _ | w
  · simp [effect] at hok
  rcases oh with _ | h
  · simp [effect] at hok
  rcases ovb with _ | vb'
  · simp [effect] at hok
  obtain rfl : vb' = vb := by simpa using hvb
  simp only [effect, hsplit, hq2, hq3] at hok
  by_cases hmax : max vw vh = 0
  · rw [if_pos hmax] at hok
    cases hok
  rw [if_neg hmax] at hok
  cases hloop : effectLoop
      (parseChild (root.setTransform (scaleMat (fmtF6 (1000 / max vw vh)))) rl)
      (root.setTransform (scaleMat (fmtF6 (1000 / max vw vh)))).children
      [root.setTransform (scaleMat (fmtF6 (1000 / max vw vh)))] 0 with
  | error e =>
    rw [hloop] at hok
    cases hok
  | ok r =>
    rw [hloop] at hok
    obtain ⟨subs, u⟩ := r
    cases hok
    exact ⟨rfl, rfl⟩

/-- C2 witness: a 200×100 viewBox gives scale factor 5 and viewport
1000×500. -/
theorem c2_scale_viewport_witness :
    (VectorOut.mk "svgimage" "1dp" "1dp" 1000 500 []).viewportWidth =
      200 * (1000 / max 200 100) ∧
    (VectorOut.mk "svgimage" "1dp" "1dp" 1000 500 []).viewportHeight =
      100 * (1000 / max 200 100) :=
  c2_scale_viewport
    (SvgDoc.mk (some "1") (some "1") (some "0 0 200 100")
      (SNode.mk "svg" none none none none none [])) 1
    (VectorOut.mk "svgimage" "1dp" "1dp" 1000 500 [])
    "0 0 200 100" "0" "0" "200" "100" 200 100
    rfl (by decide) (by decide) (by decide) rfl

/-- C4 counterexample: the resolver follows `url(#linearGradientX)` to a
color even though the referenced definition's tag is `rect`, which does not
start with either gradient prefix — the code tests the id string, not the
tag, so the claim's "returns absent" fails here. -/
theorem c4_counterexample :
    (findDef c4doc "linearGradientX").map SNode.tag = some "rect" ∧
    pyStartswith "rect" "linearGradient" = false ∧
    pyStartswith "rect" "radialGradient" = false ∧
    getColorF c4doc 2 "url(#linearGradientX)" = .ok (some "#112233") :=
  ⟨rfl, by decide, by decide, rfl⟩

/-- C4 (amended): the gradient guard of `_get_color` tests the *id string*
inside `url(#...)`, not the referenced definition's tag name.  When that id
string does not start with `linearGradient` or `radialGradient` (and the
value is not a hex color or `none`, which have their own branches), the
resolver returns absent; when the id string does have such a prefix,
resolution proceeds regardless of the referenced element's tag. -/
theorem c4_prefix_check_amended :
    ∀ (doc : SNode) (n : ℕ) (c : String),
    pyStartswith c "#" = false → c ≠ "none" →
    (pyStartswith c "url(#" = false ∨ pyEndswith c ")" = false ∨
     (pyStartswith ((c.drop 5).dropRight 1) "linearGradient" = false ∧
      pyStartswith ((c.drop 5).dropRight 1) "radialGradient" = false)) →
    getColorF doc (n + 1) c = .ok none := by
  intro doc n c h1 h2 h3
  have hstep : getColorStep doc c = .inl none := by
    simp only [getColorStep, h1, Bool.false_eq_true, if_false]
    rw [if_neg h2]
    rcases h3 with h3 | h3 | ⟨ha, hb⟩
    · simp [h3]
    · simp [h3]
    · by_cases hc : pyStartswith c "url(#" = true
      · by_cases hd : pyEndswith c ")" = true
        · simp [hc, hd, ha, hb]
        · simp [hd]
      · simp [hc]
  simp [getColorF, hstep]

/-- C4 witness: `url(#myGrad)` resolves to absent in any document. -/
theorem c4_prefix_check_amended_witness :
    getColorF bareRoot 1 "url(#myGrad)" = .ok none :=
  c4_prefix_check_amended bareRoot 0 "url(#myGrad)" (by decide) (by decide)
    (Or.inr (Or.inr ⟨by decide, by decide⟩))

/-- Running `_get_color` with more fuel cannot change a successful result. -/
theorem getColorF_mono (doc : SNode) :
    ∀ (n m : ℕ) (c : String) (r : Option String),
    getColorF doc n c = .ok r → n ≤ m → getColorF doc m c = .ok r := by
  intro n
  induction n with
  | zero =>
    intro m c r h
    simp [getColorF] at h
  | succ k ih =>
    intro m c r h hm
    obtain ⟨m2, rfl⟩ : ∃ m2, m = m2 + 1 := ⟨m - 1, by omega⟩
    simp only [getColorF] at h ⊢
    cases hstep : getColorStep doc c with
    | inl r2 =>
      rw [hstep] at h
      exact h
    | inr c2 =>
      rw [hstep] at h
      exact ih m2 c2 r h (by omega)

/-- The reference chase inside [`c9wdoc`] strictly decreases [`c9rank`]. -/
theorem c9rank_decreases :
    ∀ c c2, getColorStep c9wdoc c = .inr c2 → c9rank c2 < c9rank c := by
  intro c c2 h
  have hcases : ∀ i, findDef c9wdoc i =
      (if "linearGradientG" = i then some c9wG
       else if "B2" = i then some c9wB2 else none) := by
    intro i
    by_cases hA : "linearGradientG" = i <;> by_cases hB : "B2" = i <;>
      simp [findDef, defsElems, c9wdoc, c9wG, c9wB2, SNode.children, SNode.tag,
        SNode.idAttr, getTagName, List.find?, hA, hB]
  simp only [getColorStep] at h
  by_cases h1 : pyStartswith c "#" = true
  · simp [h1] at h
  by_cases h2 : c = "none"
  · simp [h2, show pyStartswith "none" "#" = false from rfl] at h
  by_cases h3 : pyStartswith c "url(#" = true
  case neg => simp [h1, h2, h3] at h
  by_cases h4 : pyEndswith c ")" = true
  case neg => simp [h1, h2, h3, h4] at h
  simp only [h1, h2, h3, h4] at h
  by_cases h5 : (pyStartswith ((c.drop 5).dropRight 1) "linearGradient" ||
      pyStartswith ((c.drop 5).dropRight 1) "radialGradient") = true
  case neg => simp [h5] at h
  simp only [h5] at h
  rw [hcases] at h
  by_cases hA : "linearGradientG" = ((c.drop 5).dropRight 1)
  · rw [if_pos hA] at h
    have hfs : findStop c9wdoc "B2" =
        some (.mk "stop" none none (some [("stop-color", "#00ff00")]) none none []) := rfl
    simp only [c9wG, SNode.hrefAttr] at h
    norm_num at h
    rw [show (if pyStartswith "#B2" "#" then String.drop "#B2" 1 else "#B2") = "B2" from rfl,
      hfs] at h
    simp only [SNode.styAttr] at h
    rw [show styleGet [("stop-color", "#00ff00")] "stop-color" = some "#00ff00" from rfl] at h
    obtain rfl : c2 = "#00ff00" := by
      cases h
      rfl
    have hr2 : c9rank "#00ff00" = 0 := rfl
    have hr1 : c9rank c = 1 := by simp [c9rank, h3]
    omega
  · rw [if_neg hA] at h
    by_cases hB : "B2" = ((c.drop 5).dropRight 1)
    · rw [if_pos hB] at h
      simp [c9wB2, SNode.hrefAttr] at h
    · rw [if_neg hB] at h
      simp at h

/-- C9 (amended): the recursive stop-color chase of `_get_color` terminates
with a color or absent whenever the document's reference structure is
well-founded (admits a rank the chase strictly decreases) — but on a
document with a reference cycle the recursion never finishes: every fuel
budget (CPython recursion limit) is exhausted, i.e. Python raises
`RecursionError` rather than treating the cycle as resolution failure. -/
theorem c9_termination_amended :
    (∀ (doc : SNode) (rank : String → ℕ),
      (∀ c c2, getColorStep doc c = .inr c2 → rank c2 < rank c) →
      ∀ c, ∃ r, getColorF doc (rank c + 1) c = .ok r) ∧
    (∀ n, getColorF c9cyc n "url(#linearGradientA)" = .error .recursionError) := by
  constructor
  · intro doc rank hrank
    have main : ∀ (bound : ℕ) (c : String), rank c ≤ bound →
        ∃ r, getColorF doc (rank c + 1) c = .ok r := by
      intro bound
      induction bound with
      | zero =>
        intro c hc
        cases hstep : getColorStep doc c with
        | inl r => exact ⟨r, by simp [getColorF, hstep]⟩
        | inr c2 =>
          have := hrank _ _ hstep
          omega
      | succ k ih =>
        intro c hc
        cases hstep : getColorStep doc c with
        | inl r => exact ⟨r, by simp [getColorF, hstep]⟩
        | inr c2 =>
          have hlt := hrank _ _ hstep
          obtain ⟨r, hr⟩ := ih c2 (by omega)
          refine ⟨r, ?_⟩
          have hmono := getColorF_mono doc (rank c2 + 1) (rank c) c2 r hr (by omega)
          simp [getColorF, hstep, hmono]
    intro c
    exact main (rank c) c le_rfl
  · intro n
    induction n with
    | zero => rfl
    | succ k ih =>
      have hstep : getColorStep c9cyc "url(#linearGradientA)" =
          .inr "url(#linearGradientA)" := rfl
      simp [getColorF, hstep, ih]

/-- C9 counterexample: on the cyclic fixture one chase step maps the color
reference back to itself, so the recursion re-visits the same value forever;
at CPython's recursion limit (any concrete fuel, here 3) the call dies with
`RecursionError` instead of returning a color or absent. -/
theorem c9_counterexample :
    getColorStep c9cyc "url(#linearGradientA)" = .inr "url(#linearGradientA)" ∧
    getColorF c9cyc 3 "url(#linearGradientA)" = .error .recursionError :=
  ⟨rfl, rfl⟩

/-- C9 witness: the amended termination theorem applied to the acyclic
fixture and its rank function resolves `url(#linearGradientG)` with fuel 2. -/
theorem c9_termination_amended_witness :
    ∃ r, getColorF c9wdoc 2 "url(#linearGradientG)" = .ok r :=
  c9_termination_amended.1 c9wdoc c9rank c9rank_decreases "url(#linearGradientG)"

/-- A lookup misses a list none of whose keys match. -/
theorem attrLookup_of_keys (l : List (String × AVal)) (k : String)
    (hk : ∀ kv ∈ l, kv.1 ≠ k) : attrLookup l k = none := by
  have hf : l.find? (fun kv => kv.1 == k) = none := by
    rw [List.find?_eq_none]
    intro kv hkv
    simpa using hk kv hkv
  simp [attrLookup, hf]

/-- A lookup that misses the front of an appended list continues behind it. -/
theorem attrLookup_append_none (l1 l2 : List (String × AVal)) (k : String)
    (h : attrLookup l1 k = none) : attrLookup (l1 ++ l2) k = attrLookup l2 k := by
  induction l1 with
  | nil => rfl
  | cons a l1 ih =>
    simp only [attrLookup, List.cons_append, List.find?] at h ⊢
    cases hb : (a.1 == k) with
    | true =>
      rw [hb] at h
      simp at h
    | false =>
      rw [hb] at h
      exact ih h

/-- Unfolding of `parseChild` on a path-tagged node carrying geometry:
name resolution, transform flattening, cleanup, then either the three
style defaults or the mapped style attributes. -/
theorem parseChild_path_eq (doc : SNode) (fuel : ℕ) (src : SNode)
    (anc : List SNode) (uid : ℕ)
    (ht : getTagName src.tag = "path") (p0 : CSPPath) (hd : src.dAttr = some p0) :
    parseChild doc (fuel + 1) src anc uid =
      match src.styAttr with
      | none => .ok (some (.mk "path"
          ([("name", AVal.s (match src.idAttr with
              | some n => n
              | none => "path" ++ toString uid)),
            ("pathData", AVal.p (cleanupSmall (applyTransformsLoop (anc ++ [src]) p0)))] ++
           [("strokeColor", AVal.s "#000000"), ("strokeWidth", AVal.s "1"),
            ("fillColor", AVal.s "#FFFFFF")]) []),
          (match src.idAttr with | some _ => uid | none => uid + 1))
      | some sty =>
        match styleAttrs doc fuel sty with
        | .error err => .error err
        | .ok sa => .ok (some (.mk "path"
            ([("name", AVal.s (match src.idAttr with
                | some n => n
                | none => "path" ++ toString uid)),
              ("pathData", AVal.p (cleanupSmall (applyTransformsLoop (anc ++ [src]) p0)))] ++
             sa) []),
            (match src.idAttr with | some _ => uid | none => uid + 1)) := by
  rcases hid : src.idAttr with _ | nm <;>
    rcases hsty : src.styAttr with _ | sty <;>
      simp [parseChild, ht, hd, hid, hsty]

/-- The declared opacity parses to the overall opacity factor. -/
theorem opacityVal_of (sty : Style) (qo : ℚ)
    (hqo : (match styleGet sty "opacity" with
            | some s => parseQ s
            | none => some 1) = some qo) :
    opacityVal sty = .ok qo := by
  cases ho : styleGet sty "opacity" with
  | none =>
    simp only [ho] at hqo
    obtain rfl : (1 : ℚ) = qo := by simpa using hqo
    simp [opacityVal, ho]
  | some s =>
    simp only [ho] at hqo
    simp [opacityVal, ho, pyFloat, hqo]

/-- `fillAlphaAttr` in terms of the parsed factors: present exactly when
`fill-opacity` or `opacity` is declared, with value `opacity * fill-opacity`. -/
theorem fillAlphaAttr_eq (qo qf : ℚ) (sty : Style)
    (hqf : (match styleGet sty "fill-opacity" with
            | some s => parseQ s
            | none => some 1) = some qf) :
    fillAlphaAttr qo sty = .ok
      (if (styleGet sty "fill-opacity").isSome || (styleGet sty "opacity").isSome
       then [("fillAlpha", AVal.q (qo * qf))] else []) := by
  cases hfo : styleGet sty "fill-opacity" with
  | none =>
    simp only [hfo] at hqf
    obtain rfl : (1 : ℚ) = qf := by simpa using hqf
    by_cases hop : (styleGet sty "opacity").isSome <;>
      simp [fillAlphaAttr, hfo, hop, mul_one]
  | some s =>
    simp only [hfo] at hqf
    simp [fillAlphaAttr, hfo, pyFloat, hqf]

/-- Every attribute `fillColorAttr` can produce is keyed `fillColor`. -/
theorem fillColorAttr_keys (doc : SNode) (fuel : ℕ) (sty : Style)
    (l : List (String × AVal)) (h : fillColorAttr doc fuel sty = .ok l) :
    ∀ kv ∈ l, kv.1 = "fillColor" := by
  cases hf : styleGet sty "fill" with
  | none =>
    simp only [fillColorAttr, hf] at h
    cases h
    simp
  | some cval =>
    cases hc : getColorF doc fuel cval with
    | error e =>
      simp only [fillColorAttr, hf, hc] at h
      exact Except.noConfusion h
    | ok oc =>
      cases oc with
      | none =>
        simp only [fillColorAttr, hf, hc] at h
        cases h
        simp
      | some col =>
        simp only [fillColorAttr, hf, hc] at h
        cases h
        simp

/-- Every attribute `strokeColorAttr` can produce is keyed `strokeColor`. -/
theorem strokeColorAttr_keys (doc : SNode) (fuel : ℕ) (sty : Style)
    (l : List (String × AVal)) (h : strokeColorAttr doc fuel sty = .ok l) :
    ∀ kv ∈ l, kv.1 = "strokeColor" := by
  cases hf : styleGet sty "stroke" with
  | none =>
    simp only [strokeColorAttr, hf] at h
    cases h
    simp
  | some cval =>
    cases hc : getColorF doc fuel cval with
    | error e =>
      simp only [strokeColorAttr, hf, hc] at h
      exact Except.noConfusion h
    | ok oc =>
      cases oc with
      | none =>
        simp only [strokeColorAttr, hf, hc] at h
        cases h
        simp
      | some col =>
        simp only [strokeColorAttr, hf, hc] at h
        cases h
        simp

/-- Every attribute `strokeAlphaAttr` can produce is keyed `strokeAlpha`. -/
theorem strokeAlphaAttr_keys (qo : ℚ) (sty : Style)
    (l : List (String × AVal)) (h : strokeAlphaAttr qo sty = .ok l) :
    ∀ kv ∈ l, kv.1 = "strokeAlpha" := by
  unfold strokeAlphaAttr at h
  repeat' split at h
  all_goals
    first
      | exact Except.noConfusion h
      | (injection h with h2
         subst h2
         simp)

/-- Every attribute `fillTypeAttr` produces is keyed `fillType`. -/
theorem fillTypeAttr_keys (sty : Style) :
    ∀ kv ∈ fillTypeAttr sty, kv.1 = "fillType" := by
  unfold fillTypeAttr
  cases styleGet sty "fill-rule" with
  | none => simp
  | some v =>
    by_cases h1 : v = "evenodd"
    · simp [h1]
    · by_cases h2 : v = "nonzero" <;> simp [h1, h2]

/-- Every attribute `strokeWidthAttr` produces is keyed `strokeWidth`. -/
theorem strokeWidthAttr_keys (sty : Style) :
    ∀ kv ∈ strokeWidthAttr sty, kv.1 = "strokeWidth" := by
  unfold strokeWidthAttr
  cases styleGet sty "stroke-width" with
  | none => simp
  | some v => simp

/-- Every attribute `strokeCapAttr` produces is keyed `strokeLineCap`. -/
theorem strokeCapAttr_keys (sty : Style) :
    ∀ kv ∈ strokeCapAttr sty, kv.1 = "strokeLineCap" := by
  unfold strokeCapAttr
  cases styleGet sty "stroke-linecap" with
  | none => simp
  | some v => simp

/-- Every attribute `strokeJoinAttr` produces is keyed `strokeLineJoin`. -/
theorem strokeJoinAttr_keys (sty : Style) :
    ∀ kv ∈ strokeJoinAttr sty, kv.1 = "strokeLineJoin" := by
  unfold strokeJoinAttr
  cases styleGet sty "stroke-linejoin" with
  | none => simp
  | some v => simp

/-- Every attribute `strokeMiterAttr` produces is keyed `strokeMiterLimit`. -/
theorem strokeMiterAttr_keys (sty : Style) :
    ∀ kv ∈ strokeMiterAttr sty, kv.1 = "strokeMiterLimit" := by
  unfold strokeMiterAttr
  cases styleGet sty "stroke-miterlimit" with
  | none => simp
  | some v => simp

/-- The `fillAlpha` binding of the full style-attribute list. -/
theorem styleAttrs_fillAlpha (doc : SNode) (fuel : ℕ) (sty : Style)
    (sa : List (String × AVal)) (qo qf : ℚ)
    (hqo : (match styleGet sty "opacity" with
            | some s => parseQ s
            | none => some 1) = some qo)
    (hqf : (match styleGet sty "fill-opacity" with
            | some s => parseQ s
            | none => some 1) = some qf)
    (hsa : styleAttrs doc fuel sty = .ok sa) :
    attrLookup sa "fillAlpha" =
      (if (styleGet sty "fill-opacity").isSome || (styleGet sty "opacity").isSome
       then some (AVal.q (qo * qf)) else none) := by
  unfold styleAttrs at hsa
  simp only [opacityVal_of sty qo hqo] at hsa
  cases hf : fillColorAttr doc fuel sty with
  | error e =>
    simp only [hf] at hsa
    exact Except.noConfusion hsa
  | ok fca =>
    simp only [hf, fillAlphaAttr_eq qo qf sty hqf] at hsa
    cases hs : strokeColorAttr doc fuel sty with
    | error e =>
      simp only [hs] at hsa
      exact Except.noConfusion hsa
    | ok sca =>
      simp only [hs] at hsa
      cases hsal : strokeAlphaAttr qo sty with
      | error e =>
        simp only [hsal] at hsa
        exact Except.noConfusion hsa
      | ok saa =>
        simp only [hsal] at hsa
        cases hsa
        simp only [List.append_assoc]
        rw [attrLookup_append_none _ _ _ (attrLookup_of_keys fca _ (by
          intro kv hkv
          rw [fillColorAttr_keys doc fuel sty fca hf kv hkv]
          decide))]
        by_cases hcond : ((styleGet sty "fill-opacity").isSome ||
            (styleGet sty "opacity").isSome) = true
        · rw [if_pos hcond, if_pos hcond]
          simp [attrLookup, List.find?]
        · rw [if_neg hcond, if_neg hcond]
          rw [List.nil_append]
          apply attrLookup_of_keys
          intro kv hkv
          simp only [List.mem_append] at hkv
          rcases hkv with h | h | h | h | h | h | h
          · rw [fillTypeAttr_keys sty kv h]
            decide
          · rw [strokeColorAttr_keys doc fuel sty sca hs kv h]
            decide
          · rw [strokeWidthAttr_keys sty kv h]
            decide
          · rw [strokeAlphaAttr_keys qo sty saa hsal kv h]
            decide
          · rw [strokeCapAttr_keys sty kv h]
            decide
          · rw [strokeJoinAttr_keys sty kv h]
            decide
          · rw [strokeMiterAttr_keys sty kv h]
            decide

/-- C5: for every styled shape the `fillAlpha` attribute is set if and only
if `fill-opacity` or `opacity` appears in the style map, with value
`opacity × fill-opacity` (each factor defaulting to 1 when absent); and the
spec's example style `fill:#ff0000;fill-opacity:0.5;opacity:0.5` yields
fill color `#ff0000` and fill alpha `0.25` (together with the mirrored
stroke alpha the code also emits). -/
theorem c5_fill_alpha :
    (∀ (doc : SNode) (fuel : ℕ) (src : SNode) (anc : List SNode) (uid : ℕ)
       (el : OutEl) (u2 : ℕ) (sty : Style) (p0 : CSPPath) (qo qf : ℚ),
      getTagName src.tag = "path" → src.dAttr = some p0 → src.styAttr = some sty →
      (match styleGet sty "opacity" with
       | some s => parseQ s
       | none => some 1) = some qo →
      (match styleGet sty "fill-opacity" with
       | some s => parseQ s
       | none => some 1) = some qf →
      parseChild doc fuel src anc uid = .ok (some el, u2) →
      attrLookup el.attrs "fillAlpha" =
        (if (styleGet sty "fill-opacity").isSome || (styleGet sty "opacity").isSome
         then some (AVal.q (qo * qf)) else none)) ∧
    parseChild bareRoot 2 c5node [] 0 = .ok (some (.mk "path"
      [("name", AVal.s "p"), ("pathData", AVal.p [[[(0, 0)]]]),
       ("fillColor", AVal.s "#ff0000"), ("fillAlpha", AVal.q (1 / 4)),
       ("strokeAlpha", AVal.q (1 / 2))] []), 0) := by
  constructor
  · intro doc fuel src anc uid el u2 sty p0 qo qf ht hd hsty hqo hqf hok
    cases fuel with
    | zero => simp [parseChild] at hok
    | succ n =>
      rw [parseChild_path_eq doc n src anc uid ht p0 hd] at hok
      simp only [hsty] at hok
      cases hsa : styleAttrs doc n sty with
      | error e =>
        simp only [hsa] at hok
        exact Except.noConfusion hok
      | ok sa =>
        simp only [hsa, Except.ok.injEq, Prod.mk.injEq, Option.some.injEq] at hok
        obtain ⟨⟨rfl, _⟩⟩ := hok
        show attrLookup (_ ++ sa) "fillAlpha" = _
        rw [attrLookup_append_none _ _ _ (attrLookup_of_keys _ _ (by
          intro kv hkv
          simp only [List.mem_cons, List.mem_singleton, List.not_mem_nil] at hkv
          rcases hkv with rfl | rfl | hkv
          · simp
          · simp
          · simp at hkv))]
        exact styleAttrs_fillAlpha doc n sty sa qo qf hqo hqf hsa
  · rfl

/-- C5 witness: the universal part applied to the concrete example node. -/
theorem c5_fill_alpha_witness :
    attrLookup (OutEl.attrs (.mk "path"
      [("name", AVal.s "p"), ("pathData", AVal.p [[[(0, 0)]]]),
       ("fillColor", AVal.s "#ff0000"), ("fillAlpha", AVal.q (1 / 4)),
       ("strokeAlpha", AVal.q (1 / 2))] [])) "fillAlpha" =
      (if (styleGet c5sty "fill-opacity").isSome || (styleGet c5sty "opacity").isSome
       then some (AVal.q ((1 / 2) * (1 / 2))) else none) :=
  c5_fill_alpha.1 bareRoot 2 c5node [] 0 _ 0 c5sty [[[(0, 0)]]] (1 / 2) (1 / 2)
    rfl rfl rfl (by decide) (by decide) rfl

/-- C8: a path-tagged shape with geometry but no style attribute emits
exactly the three fixed style defaults — stroke color `#000000`, stroke
width `1`, fill color `#FFFFFF` — and no other style attribute (besides
its `name` and `pathData`). -/
theorem c8_default_style :
    ∀ (doc : SNode) (fuel : ℕ) (src : SNode) (anc : List SNode) (uid : ℕ)
      (p0 : CSPPath),
    getTagName src.tag = "path" → src.dAttr = some p0 → src.styAttr = none →
    parseChild doc (fuel + 1) src anc uid = .ok (some (.mk "path"
      [("name", AVal.s (match src.idAttr with
         | some n => n
         | none => "path" ++ toString uid)),
       ("pathData", AVal.p (cleanupSmall (applyTransformsLoop (anc ++ [src]) p0))),
       ("strokeColor", AVal.s "#000000"), ("strokeWidth", AVal.s "1"),
       ("fillColor", AVal.s "#FFFFFF")] []),
      (match src.idAttr with | some _ => uid | none => uid + 1)) := by
  intro doc fuel src anc uid p0 ht hd hsty
  rw [parseChild_path_eq doc fuel src anc uid ht p0 hd]
  simp only [hsty]
  rfl

/-- C8 witness: a bare unnamed path entering with counter 5 gets exactly
name `path5`, its geometry, and the three defaults, and bumps the counter. -/
theorem c8_default_style_witness :
    parseChild bareRoot 2 c8node [] 5 = .ok (some (.mk "path"
      [("name", AVal.s "path5"), ("pathData", AVal.p [[[(1, 2)]]]),
       ("strokeColor", AVal.s "#000000"), ("strokeWidth", AVal.s "1"),
       ("fillColor", AVal.s "#FFFFFF")] []), 6) :=
  c8_default_style bareRoot 1 c8node [] 5 [[[(1, 2)]]] rfl rfl rfl

/-- The emitted `pathData` of a path node: the parsed geometry with all
transforms of the chain applied (node first, root last), then cleaned. -/
theorem parseChild_pathData (doc : SNode) (fuel : ℕ) (src : SNode)
    (anc : List SNode) (uid : ℕ) (el : OutEl) (u2 : ℕ) (p0 : CSPPath)
    (ht : getTagName src.tag = "path") (hd : src.dAttr = some p0)
    (hok : parseChild doc fuel src anc uid = .ok (some el, u2)) :
    attrLookup el.attrs "pathData" =
      some (AVal.p (cleanupSmall (applyTransformsLoop (anc ++ [src]) p0))) := by
  cases fuel with
  | zero => simp [parseChild] at hok
  | succ n =>
    rw [parseChild_path_eq doc n src anc uid ht p0 hd] at hok
    cases hsty : src.styAttr with
    | none =>
      simp only [hsty, Except.ok.injEq, Prod.mk.injEq, Option.some.injEq] at hok
      obtain ⟨⟨rfl, _⟩⟩ := hok
      show attrLookup (_ ++ _) "pathData" = _
      simp [attrLookup, List.find?]
    | some sty =>
      simp only [hsty] at hok
      cases hsa : styleAttrs doc n sty with
      | error e =>
        simp only [hsa] at hok
        exact Except.noConfusion hok
      | ok sa =>
        simp only [hsa, Except.ok.injEq, Prod.mk.injEq, Option.some.injEq] at hok
        obtain ⟨⟨rfl, _⟩⟩ := hok
        show attrLookup (_ ++ sa) "pathData" = _
        simp [attrLookup, List.find?]

/-- The code's reversed-iteration loop equals the spec's leaf-to-root
formulation on the declared transforms of the reversed chain. -/
theorem applyTransformsLoop_eq_spec (chain : List SNode) (p : CSPPath) :
    applyTransformsLoop chain p = specLeafToRoot (declaredTransforms chain.reverse) p := by
  unfold applyTransformsLoop declaredTransforms
  generalize chain.reverse = l
  induction l generalizing p with
  | nil => rfl
  | cons n ns ih =>
    cases ht : n.trAttr with
    | none => simp [List.foldl_cons, List.filterMap_cons, ht, specLeafToRoot, ih]
    | some t => simp [List.foldl_cons, List.filterMap_cons, ht, specLeafToRoot, ih]

/-- C1: for every path-bearing shape node, the emitted geometry equals the
spec's §4.2 iteration — the declared transforms of the ancestor stack taken
from the node itself backward to the root, each applied immediately to the
already-transformed points (leaf-to-root order, then the numeric cleanup).
On the concrete nested fixture with a rotation under a non-commuting scale,
the pipeline produces the leaf-to-root coordinates `(0, 1)`, while the
root-to-leaf order would produce the different `(0, 2)`. -/
theorem c1_transform_order :
    (∀ (doc : SNode) (fuel : ℕ) (src : SNode) (anc : List SNode) (uid : ℕ)
       (el : OutEl) (u2 : ℕ) (p0 : CSPPath),
      getTagName src.tag = "path" → src.dAttr = some p0 →
      parseChild doc fuel src anc uid = .ok (some el, u2) →
      attrLookup el.attrs "pathData" =
        some (AVal.p (cleanupSmall
          (specLeafToRoot (declaredTransforms (src :: anc.reverse)) p0)))) ∧
    specLeafToRoot [rot90, scale21] [[[(1, 0)]]] = [[[(0, 1)]]] ∧
    specLeafToRoot [scale21, rot90] [[[(1, 0)]]] = [[[(0, 2)]]] ∧
    specLeafToRoot [rot90, scale21] [[[(1, 0)]]] ≠
      specLeafToRoot [scale21, rot90] [[[(1, 0)]]] ∧
    effect c1doc 5 = .ok (VectorOut.mk "doc" "100dp" "100dp" 1000 1000
      [.mk "group" [("name", AVal.s "gA")]
        [.mk "path" [("name", AVal.s "p1"), ("pathData", AVal.p [[[(0, 1)]]]),
          ("strokeColor", AVal.s "#000000"), ("strokeWidth", AVal.s "1"),
          ("fillColor", AVal.s "#FFFFFF")] []]]) := by
  refine ⟨?_, by decide, by decide, by decide, rfl⟩
  intro doc fuel src anc uid el u2 p0 ht hd hok
  have hp := parseChild_pathData doc fuel src anc uid el u2 p0 ht hd hok
  rw [applyTransformsLoop_eq_spec] at hp
  simpa [List.reverse_append] using hp

/-- C1 witness: the universal conjunct applied to the concrete
rotation-under-scale fixture. -/
theorem c1_transform_order_witness :
    attrLookup [("name", AVal.s "p1"), ("pathData", AVal.p [[[(0, 1)]]]),
        ("strokeColor", AVal.s "#000000"), ("strokeWidth", AVal.s "1"),
        ("fillColor", AVal.s "#FFFFFF")] "pathData" =
      some (AVal.p (cleanupSmall
        (specLeafToRoot (declaredTransforms (c1path :: [c1group].reverse)) [[[(1, 0)]]]))) :=
  c1_transform_order.1 bareRoot 2 c1path [c1group] 0
    (.mk "path" [("name", AVal.s "p1"), ("pathData", AVal.p [[[(0, 1)]]]),
      ("strokeColor", AVal.s "#000000"), ("strokeWidth", AVal.s "1"),
      ("fillColor", AVal.s "#FFFFFF")] []) 0 [[[(1, 0)]]] rfl rfl rfl

/-- C6: after transform flattening the cleanup pass visits every coordinate
of every control point: a component whose Python string form carries an
`e-` exponent (nonzero magnitude below `1e-4`) becomes exactly `0.0` and
every other component is untouched; the pass sits between the transform
loop and the serialisation of `pathData`.  The closed conjuncts evaluate
the predicate at the boundary and a value like `1.2e-14`. -/
theorem c6_small_number_cleanup :
    (∀ (doc : SNode) (fuel : ℕ) (src : SNode) (anc : List SNode) (uid : ℕ)
       (el : OutEl) (u2 : ℕ) (p0 : CSPPath),
      getTagName src.tag = "path" → src.dAttr = some p0 →
      parseChild doc fuel src anc uid = .ok (some el, u2) →
      attrLookup el.attrs "pathData" =
        some (AVal.p (cleanupSmall (applyTransformsLoop (anc ++ [src]) p0)))) ∧
    (∀ (p : CSPPath) (i j k : ℕ),
      ((cleanupSmall p)[i]?.bind fun sub => sub[j]?.bind fun trip => trip[k]?) =
        ((p[i]?.bind fun sub => sub[j]?.bind fun trip => trip[k]?).map
          fun pt => (if hasEMinusRepr pt.1 then 0 else pt.1,
                     if hasEMinusRepr pt.2 then 0 else pt.2))) ∧
    cleanupSmall [[[(12 / 10 ^ 15, 3)]]] = [[[(0, 3)]]] ∧
    hasEMinusRepr (12 / 10 ^ 15) = true ∧
    hasEMinusRepr (1 / 10000) = false ∧
    hasEMinusRepr 0 = false := by
  refine ⟨?_, ?_, by decide, by decide, by decide, by decide⟩
  · intro doc fuel src anc uid el u2 p0 ht hd hok
    exact parseChild_pathData doc fuel src anc uid el u2 p0 ht hd hok
  · intro p i j k
    rcases hp : p[i]? with _ | sub
    · simp [cleanupSmall, List.getElem?_map, hp]
    · rcases hs : sub[j]? with _ | trip
      · simp [cleanupSmall, List.getElem?_map, hp, hs]
      · rcases hk : trip[k]? with _ | pt
        · simp [cleanupSmall, List.getElem?_map, hp, hs, hk]
        · simp [cleanupSmall, cleanComp, List.getElem?_map, hp, hs, hk]

/-- C6 witness: the pipeline conjunct applied to a path whose x-coordinate
`1.2e-14` is rewritten to `0.0` in the emitted geometry. -/
theorem c6_small_number_cleanup_witness :
    attrLookup [("name", AVal.s "tiny"), ("pathData", AVal.p [[[(0, 3)]]]),
        ("strokeColor", AVal.s "#000000"), ("strokeWidth", AVal.s "1"),
        ("fillColor", AVal.s "#FFFFFF")] "pathData" =
      some (AVal.p (cleanupSmall (applyTransformsLoop ([] ++ [c6node])
        [[[(12 / 10 ^ 15, 3)]]]))) :=
  c6_small_number_cleanup.1 bareRoot 2 c6node [] 0
    (.mk "path" [("name", AVal.s "tiny"), ("pathData", AVal.p [[[(0, 3)]]]),
      ("strokeColor", AVal.s "#000000"), ("strokeWidth", AVal.s "1"),
      ("fillColor", AVal.s "#FFFFFF")] []) 0 [[[(12 / 10 ^ 15, 3)]]] rfl rfl rfl

/-- If a per-node counter instrument agrees with a per-node parser on exit
counters, the instrumented child loop agrees with `parseChildList`. -/
theorem synthChildList_of_parseChildList
    (pc : SNode → List SNode → ℕ → Except PyErr (Option OutEl × ℕ))
    (sy : SNode → ℕ → Option (List ℕ × ℕ)) (anc : List SNode)
    (H : ∀ src uid r, pc src anc uid = .ok r → ∃ l, sy src uid = some (l, r.2)) :
    ∀ (cs : List SNode) (uid : ℕ) (res : List OutEl × ℕ),
      parseChildList pc cs anc uid = .ok res →
      ∃ l, synthChildList sy cs uid = some (l, res.2) := by
  intro cs
  induction cs with
  | nil =>
    intro uid res h
    obtain rfl : (([] : List OutEl), uid) = res := by simpa [parseChildList] using h
    exact ⟨[], rfl⟩
  | cons c rest ih =>
    intro uid res h
    simp only [parseChildList] at h
    cases h1 : pc c anc uid with
    | error e =>
      simp only [h1] at h
      exact Except.noConfusion h
    | ok r1 =>
      obtain ⟨sub, uid1⟩ := r1
      simp only [h1] at h
      cases h2 : parseChildList pc rest anc uid1 with
      | error e =>
        simp only [h2] at h
        exact Except.noConfusion h
      | ok r2 =>
        obtain ⟨subs, u2⟩ := r2
        simp only [h2] at h
        obtain rfl : (sub.toList ++ subs, u2) = res := by simpa using h
        obtain ⟨l1, hl1⟩ := H c uid (sub, uid1) h1
        obtain ⟨l2, hl2⟩ := ih uid1 (subs, u2) h2
        exact ⟨l1 ++ l2, by simp [synthChildList, hl1, hl2]⟩

/-- Claim C7, tie at the node level: whenever `parseChild` completes, the
spec-side instrument `synthSeq` is defined and reports the same exit value
of `self.unique_id`. -/
theorem parseChild_synthSeq (doc : SNode) :
    ∀ (fuel : ℕ) (src : SNode) (anc : List SNode) (uid : ℕ) (r : Option OutEl × ℕ),
      parseChild doc fuel src anc uid = .ok r →
      ∃ l, synthSeq fuel src uid = some (l, r.2) := by
  intro fuel
  induction fuel with
  | zero =>
    intro src anc uid r h
    simp [parseChild] at h
  | succ n ih =>
    intro src anc uid r h
    rcases hid : src.idAttr with _ | nm
    all_goals by_cases hg : getTagName src.tag = "g"
    case pos =>
      simp [parseChild, hg, hid] at h
      cases hpl : parseChildList (parseChild doc n) src.children (anc ++ [src]) (uid + 1) with
      | error e =>
        simp only [hpl] at h
        exact Except.noConfusion h
      | ok r2 =>
        obtain ⟨subs, u2⟩ := r2
        simp only [hpl] at h
        obtain rfl : (some (OutEl.mk "group"
            [("name", AVal.s ("group" ++ toString uid))] subs), u2) = r := by simpa using h
        obtain ⟨l2, hl2⟩ := synthChildList_of_parseChildList (parseChild doc n)
          (synthSeq n) (anc ++ [src])
          (fun src2 uid2 r2 h2 => ih src2 (anc ++ [src]) uid2 r2 h2)
          src.children (uid + 1) (subs, u2) hpl
        exact ⟨uid :: l2, by simp [synthSeq, hg, hid, hl2]⟩
    case neg =>
      by_cases hp : getTagName src.tag = "path"
      case neg =>
        simp [parseChild, hg, hp] at h
        obtain rfl : ((none : Option OutEl), uid) = r := h
        exact ⟨[], by simp [synthSeq, hg, hp]⟩
      case pos =>
        cases hd : src.dAttr with
        | none =>
          simp [parseChild, hg, hp, hd, hid] at h
          obtain rfl : ((none : Option OutEl), uid + 1) = r := h
          exact ⟨[uid], by simp [synthSeq, hg, hp, hid]⟩
        | some p0 =>
          rw [parseChild_path_eq doc n src anc uid hp p0 hd] at h
          cases hsty : src.styAttr with
          | none =>
            simp only [hsty, hid] at h
            obtain rfl : _ = r := by exact (by simpa using h : _ = r)
            exact ⟨[uid], by simp [synthSeq, hg, hp, hid]⟩
          | some sty =>
            simp only [hsty, hid] at h
            cases hsa : styleAttrs doc n sty with
            | error e =>
              simp only [hsa] at h
              exact Except.noConfusion h
            | ok sa =>
              simp only [hsa] at h
              obtain rfl : _ = r := by exact (by simpa using h : _ = r)
              exact ⟨[uid], by simp [synthSeq, hg, hp, hid]⟩
    case pos =>
      simp [parseChild, hg, hid] at h
      cases hpl : parseChildList (parseChild doc n) src.children (anc ++ [src]) uid with
      | error e =>
        simp only [hpl] at h
        exact Except.noConfusion h
      | ok r2 =>
        obtain ⟨subs, u2⟩ := r2
        simp only [hpl] at h
        obtain rfl : (some (OutEl.mk "group" [("name", AVal.s nm)] subs), u2) = r := by
          simpa using h
        obtain ⟨l2, hl2⟩ := synthChildList_of_parseChildList (parseChild doc n)
          (synthSeq n) (anc ++ [src])
          (fun src2 uid2 r2 h2 => ih src2 (anc ++ [src]) uid2 r2 h2)
          src.children uid (subs, u2) hpl
        exact ⟨l2, by simp [synthSeq, hg, hid, hl2]⟩
    case neg =>
      by_cases hp : getTagName src.tag = "path"
      case neg =>
        simp [parseChild, hg, hp] at h
        obtain rfl : ((none : Option OutEl), uid) = r := h
        exact ⟨[], by simp [synthSeq, hg, hp]⟩
      case pos =>
        cases hd : src.dAttr with
        | none =>
          simp [parseChild, hg, hp, hd, hid] at h
          obtain rfl : ((none : Option OutEl), uid) = r := h
          exact ⟨[], by simp [synthSeq, hg, hp, hid]⟩
        | some p0 =>
          rw [parseChild_path_eq doc n src anc uid hp p0 hd] at h
          cases hsty : src.styAttr with
          | none =>
            simp only [hsty, hid] at h
            obtain rfl : _ = r := by exact (by simpa using h : _ = r)
            exact ⟨[], by simp [synthSeq, hg, hp, hid]⟩
          | some sty =>
            simp only [hsty, hid] at h
            cases hsa : styleAttrs doc n sty with
            | error e =>
              simp only [hsa] at h
              exact Except.noConfusion h
            | ok sa =>
              simp only [hsa] at h
              obtain rfl : _ = r := by exact (by simpa using h : _ = r)
              exact ⟨[], by simp [synthSeq, hg, hp, hid]⟩

/-- Counter bounds lift from nodes to the child loop: entry ≤ exit, the
consumed counters are strictly increasing, and all lie in `[entry, exit)`. -/
theorem synthChildList_bounds
    (sy : SNode → ℕ → Option (List ℕ × ℕ))
    (H : ∀ src uid l u, sy src uid = some (l, u) →
      uid ≤ u ∧ List.Pairwise (· < ·) l ∧ ∀ c ∈ l, uid ≤ c ∧ c < u) :
    ∀ (cs : List SNode) (uid : ℕ) (l : List ℕ) (u : ℕ),
      synthChildList sy cs uid = some (l, u) →
      uid ≤ u ∧ List.Pairwise (· < ·) l ∧ ∀ c ∈ l, uid ≤ c ∧ c < u := by
  intro cs
  induction cs with
  | nil =>
    intro uid l u h
    obtain ⟨rfl, rfl⟩ : [] = l ∧ uid = u := by simpa [synthChildList] using h
    simp
  | cons c rest ih =>
    intro uid l u h
    simp only [synthChildList] at h
    cases h1 : sy c uid with
    | none =>
      simp only [h1] at h
      exact Option.noConfusion h
    | some r1 =>
      obtain ⟨l1, u1⟩ := r1
      simp only [h1] at h
      cases h2 : synthChildList sy rest u1 with
      | none =>
        simp only [h2] at h
        exact Option.noConfusion h
      | some r2 =>
        obtain ⟨l2, u2⟩ := r2
        simp only [h2, Option.some.injEq, Prod.mk.injEq] at h
        obtain ⟨rfl, rfl⟩ := h
        obtain ⟨hu1, hp1, hb1⟩ := H c uid l1 u1 h1
        obtain ⟨hu2, hp2, hb2⟩ := ih u1 l2 u2 h2
        refine ⟨by omega, ?_, ?_⟩
        · rw [List.pairwise_append]
          refine ⟨hp1, hp2, ?_⟩
          intro a ha b hb
          have ha2 := hb1 a ha
          have hb3 := hb2 b hb
          omega
        · intro x hx
          rcases List.mem_append.mp hx with hx | hx
          · have := hb1 x hx
            omega
          · have := hb2 x hx
            omega

/-- Claim C7, bounds at the node level: the counters `synthSeq` consumes
form a strictly increasing sequence inside `[entry, exit)`. -/
theorem synthSeq_bounds :
    ∀ (fuel : ℕ) (src : SNode) (uid : ℕ) (l : List ℕ) (u : ℕ),
      synthSeq fuel src uid = some (l, u) →
      uid ≤ u ∧ List.Pairwise (· < ·) l ∧ ∀ c ∈ l, uid ≤ c ∧ c < u := by
  intro fuel
  induction fuel with
  | zero =>
    intro src uid l u h
    simp [synthSeq] at h
  | succ n ih =>
    intro src uid l u h
    simp only [synthSeq] at h
    by_cases htag : (getTagName src.tag = "g" ∨ getTagName src.tag = "path")
    case neg =>
      rw [if_neg htag] at h
      obtain ⟨rfl, rfl⟩ : [] = l ∧ uid = u := by simpa using h
      simp
    case pos =>
      rw [if_pos htag] at h
      rcases hid : src.idAttr with _ | nm <;> simp only [hid] at h
      · by_cases hg : getTagName src.tag = "g"
        · rw [if_pos hg] at h
          cases h2 : synthChildList (synthSeq n) src.children (uid + 1) with
          | none =>
            simp only [h2] at h
            exact Option.noConfusion h
          | some r2 =>
            obtain ⟨l2, u2⟩ := r2
            simp only [h2, Option.some.injEq, Prod.mk.injEq] at h
            obtain ⟨rfl, rfl⟩ := h
            obtain ⟨hu2, hp2, hb2⟩ := synthChildList_bounds (synthSeq n) ih
              src.children (uid + 1) l2 u2 h2
            refine ⟨by omega, ?_, ?_⟩
            · simp only [List.singleton_append]
              rw [List.pairwise_cons]
              refine ⟨?_, hp2⟩
              intro a ha
              have := hb2 a ha
              omega
            · intro x hx
              simp only [List.singleton_append] at hx
              rcases List.mem_cons.mp hx with rfl | hx
              · omega
              · have := hb2 x hx
                omega
        · rw [if_neg hg] at h
          obtain ⟨rfl, rfl⟩ : [uid] = l ∧ uid + 1 = u := by simpa using h
          simp
      · by_cases hg : getTagName src.tag = "g"
        · rw [if_pos hg] at h
          cases h2 : synthChildList (synthSeq n) src.children uid with
          | none =>
            simp only [h2] at h
            exact Option.noConfusion h
          | some r2 =>
            obtain ⟨l2, u2⟩ := r2
            simp only [h2, Option.some.injEq, Prod.mk.injEq] at h
            obtain ⟨rfl, rfl⟩ := h
            obtain ⟨hu2, hp2, hb2⟩ := synthChildList_bounds (synthSeq n) ih
              src.children uid l2 u2 h2
            simpa using ⟨hu2, hp2, hb2⟩
        · rw [if_neg hg] at h
          obtain ⟨rfl, rfl⟩ : [] = l ∧ uid = u := by simpa using h
          simp

/-- Tie between the root-children loop of `effect` and its instrument. -/
theorem synthTopList_of_effectLoop
    (pc : SNode → List SNode → ℕ → Except PyErr (Option OutEl × ℕ))
    (sy : SNode → ℕ → Option (List ℕ × ℕ)) (anc : List SNode)
    (H : ∀ src uid r, pc src anc uid = .ok r → ∃ l, sy src uid = some (l, r.2)) :
    ∀ (cs : List SNode) (uid : ℕ) (res : List OutEl × ℕ),
      effectLoop pc cs anc uid = .ok res →
      ∃ l, synthTopList sy cs uid = some (l, res.2) := by
  intro cs
  induction cs with
  | nil =>
    intro uid res h
    obtain rfl : (([] : List OutEl), uid) = res := by simpa [effectLoop] using h
    exact ⟨[], rfl⟩
  | cons c rest ih =>
    intro uid res h
    simp only [effectLoop] at h
    by_cases htag : (getTagName c.tag = "g" ∨ getTagName c.tag = "path")
    · rw [if_pos htag] at h
      cases h1 : pc c anc uid with
      | error e =>
        simp only [h1] at h
        exact Except.noConfusion h
      | ok r1 =>
        obtain ⟨sub, uid1⟩ := r1
        simp only [h1] at h
        cases h2 : effectLoop pc rest anc uid1 with
        | error e =>
          simp only [h2] at h
          exact Except.noConfusion h
        | ok r2 =>
          obtain ⟨subs, u2⟩ := r2
          simp only [h2] at h
          obtain rfl : (sub.toList ++ subs, u2) = res := by simpa using h
          obtain ⟨l1, hl1⟩ := H c uid (sub, uid1) h1
          obtain ⟨l2, hl2⟩ := ih uid1 (subs, u2) h2
          refine ⟨l1 ++ l2, ?_⟩
          simp only [synthTopList]
          rw [if_pos htag]
          simp [hl1, hl2]
    · rw [if_neg htag] at h
      obtain ⟨l, hl⟩ := ih uid res h
      refine ⟨l, ?_⟩
      simp only [synthTopList]
      rw [if_neg htag]
      exact hl

/-- Counter bounds for the root-children loop instrument. -/
theorem synthTopList_bounds
    (sy : SNode → ℕ → Option (List ℕ × ℕ))
    (H : ∀ src uid l u, sy src uid = some (l, u) →
      uid ≤ u ∧ List.Pairwise (· < ·) l ∧ ∀ c ∈ l, uid ≤ c ∧ c < u) :
    ∀ (cs : List SNode) (uid : ℕ) (l : List ℕ) (u : ℕ),
      synthTopList sy cs uid = some (l, u) →
      uid ≤ u ∧ List.Pairwise (· < ·) l ∧ ∀ c ∈ l, uid ≤ c ∧ c < u := by
  intro cs
  induction cs with
  | nil =>
    intro uid l u h
    obtain ⟨rfl, rfl⟩ : [] = l ∧ uid = u := by simpa [synthTopList] using h
    simp
  | cons c rest ih =>
    intro uid l u h
    simp only [synthTopList] at h
    by_cases htag : (getTagName c.tag = "g" ∨ getTagName c.tag = "path")
    · rw [if_pos htag] at h
      cases h1 : sy c uid with
      | none =>
        simp only [h1] at h
        exact Option.noConfusion h
      | some r1 =>
        obtain ⟨l1, u1⟩ := r1
        simp only [h1] at h
        cases h2 : synthTopList sy rest u1 with
        | none =>
          simp only [h2] at h
          exact Option.noConfusion h
        | some r2 =>
          obtain ⟨l2, u2⟩ := r2
          simp only [h2, Option.some.injEq, Prod.mk.injEq] at h
          obtain ⟨rfl, rfl⟩ := h
          obtain ⟨hu1, hp1, hb1⟩ := H c uid l1 u1 h1
          obtain ⟨hu2, hp2, hb2⟩ := ih u1 l2 u2 h2
          refine ⟨by omega, ?_, ?_⟩
          · rw [List.pairwise_append]
            refine ⟨hp1, hp2, ?_⟩
            intro a ha b hb
            have ha2 := hb1 a ha
            have hb3 := hb2 b hb
            omega
          · intro x hx
            rcases List.mem_append.mp hx with hx | hx
            · have := hb1 x hx
              omega
            · have := hb2 x hx
              omega
    · rw [if_neg htag] at h
      exact ih uid l u h

/-- An element without a declared id is named `<kind><counter>` with the
counter value on entry (`el_tag + str(self.unique_id)`). -/
theorem parseChild_name (doc : SNode) (fuel : ℕ) (src : SNode) (anc : List SNode)
    (uid : ℕ) (el : OutEl) (u2 : ℕ)
    (hid : src.idAttr = none)
    (hok : parseChild doc fuel src anc uid = .ok (some el, u2)) :
    attrLookup el.attrs "name" = some (AVal.s (el.tag ++ toString uid)) := by
  cases fuel with
  | zero => simp [parseChild] at hok
  | succ n =>
    by_cases hg : getTagName src.tag = "g"
    · simp [parseChild, hg, hid] at hok
      cases hpl : parseChildList (parseChild doc n) src.children (anc ++ [src]) (uid + 1) with
      | error e =>
        simp only [hpl] at hok
        exact Except.noConfusion hok
      | ok r2 =>
        obtain ⟨subs, v⟩ := r2
        simp only [hpl, Except.ok.injEq, Prod.mk.injEq, Option.some.injEq] at hok
        obtain ⟨rfl, _⟩ := hok
        simp [attrLookup, List.find?, OutEl.attrs, OutEl.tag]
    · by_cases hp : getTagName src.tag = "path"
      case neg =>
        simp [parseChild, hg, hp] at hok
      case pos =>
        cases hd : src.dAttr with
        | none => simp [parseChild, hg, hp, hd, hid] at hok
        | some p0 =>
          rw [parseChild_path_eq doc n src anc uid hp p0 hd] at hok
          cases hsty : src.styAttr with
          | none =>
            simp only [hsty, hid, Except.ok.injEq, Prod.mk.injEq, Option.some.injEq] at hok
            obtain ⟨⟨rfl, _⟩⟩ := hok
            simp [attrLookup, List.find?, OutEl.attrs, OutEl.tag]
          | some sty =>
            simp only [hsty, hid] at hok
            cases hsa : styleAttrs doc n sty with
            | error e =>
              simp only [hsa] at hok
              exact Except.noConfusion hok
            | ok sa =>
              simp only [hsa, Except.ok.injEq, Prod.mk.injEq, Option.some.injEq] at hok
              obtain ⟨⟨rfl, _⟩⟩ := hok
              simp [attrLookup, List.find?, OutEl.attrs, OutEl.tag]

/-- C7: `self.unique_id` is one process-wide counter.  `synthSeq` /
`synthTopList` instrument exactly the counter consumption of `parseChild`
and of `effect`'s root loop (which starts the counter at 0).  The
conjuncts state: (1) whenever `parseChild` completes it leaves the counter
exactly where the instrument says, so the counter is threaded through the
whole traversal rather than per parent; (2) the same across the root's
children; (3, 4) the synthesized counter values of any subtree or sibling
list are strictly increasing and confined to `[entry, exit)` — so no value
is ever reused anywhere in the tree, including across sibling subtrees at
different depths; (5) every node without a declared id is named
`<kind><counter>` with the entry value of the counter. -/
theorem c7_unique_counter :
    (∀ (doc : SNode) (fuel : ℕ) (src : SNode) (anc : List SNode) (uid : ℕ)
       (r : Option OutEl × ℕ),
      parseChild doc fuel src anc uid = .ok r →
      ∃ l, synthSeq fuel src uid = some (l, r.2)) ∧
    (∀ (doc : SNode) (fuel : ℕ) (cs : List SNode) (anc : List SNode) (uid : ℕ)
       (res : List OutEl × ℕ),
      effectLoop (parseChild doc fuel) cs anc uid = .ok res →
      ∃ l, synthTopList (synthSeq fuel) cs uid = some (l, res.2)) ∧
    (∀ (fuel : ℕ) (src : SNode) (uid : ℕ) (l : List ℕ) (u : ℕ),
      synthSeq fuel src uid = some (l, u) →
      uid ≤ u ∧ List.Pairwise (· < ·) l ∧ ∀ c ∈ l, uid ≤ c ∧ c < u) ∧
    (∀ (fuel : ℕ) (cs : List SNode) (uid : ℕ) (l : List ℕ) (u : ℕ),
      synthTopList (synthSeq fuel) cs uid = some (l, u) →
      uid ≤ u ∧ List.Pairwise (· < ·) l ∧ ∀ c ∈ l, uid ≤ c ∧ c < u) ∧
    (∀ (doc : SNode) (fuel : ℕ) (src : SNode) (anc : List SNode) (uid : ℕ)
       (el : OutEl) (u2 : ℕ),
      src.idAttr = none →
      parseChild doc fuel src anc uid = .ok (some el, u2) →
      attrLookup el.attrs "name" = some (AVal.s (el.tag ++ toString uid))) :=
  ⟨fun doc fuel => parseChild_synthSeq doc fuel,
   fun doc fuel cs anc uid res h =>
     synthTopList_of_effectLoop (parseChild doc fuel) (synthSeq fuel) anc
       (fun src uid2 r h2 => parseChild_synthSeq doc fuel src anc uid2 r h2)
       cs uid res h,
   fun fuel => synthSeq_bounds fuel,
   fun fuel cs uid l u h =>
     synthTopList_bounds (synthSeq fuel) (synthSeq_bounds fuel) cs uid l u h,
   fun doc fuel src anc uid el u2 hid hok =>
     parseChild_name doc fuel src anc uid el u2 hid hok⟩

/-- C7 witness: on a tree with unlabeled nodes at three different depths
and two sibling subtrees, the synthesized counters starting from 0 are
exactly `[0, 1, 2, 3]` — strictly increasing, never reused, final counter 4;
and the tie plus name conjuncts evaluated on a concrete one-node parse. -/
theorem c7_unique_counter_witness :
    ((0 : ℕ) ≤ 4 ∧ List.Pairwise (· < ·) [0, 1, 2, 3] ∧
      ∀ c ∈ [0, 1, 2, 3], 0 ≤ c ∧ c < 4) ∧
    (∃ l, synthSeq 5 c7tree 0 = some (l, 4)) ∧
    attrLookup (OutEl.attrs (.mk "path"
      [("name", AVal.s "path5"), ("pathData", AVal.p [[[(1, 2)]]]),
       ("strokeColor", AVal.s "#000000"), ("strokeWidth", AVal.s "1"),
       ("fillColor", AVal.s "#FFFFFF")] [])) "name" =
      some (AVal.s (OutEl.tag (.mk "path"
        [("name", AVal.s "path5"), ("pathData", AVal.p [[[(1, 2)]]]),
         ("strokeColor", AVal.s "#000000"), ("strokeWidth", AVal.s "1"),
         ("fillColor", AVal.s "#FFFFFF")] []) ++ toString 5)) :=
  ⟨c7_unique_counter.2.2.1 5 c7tree 0 [0, 1, 2, 3] 4 (by decide),
   c7_unique_counter.1 bareRoot 5 c7tree [] 0
     (some (.mk "group" [("name", AVal.s "group0")]
       [.mk "path" [("name", AVal.s "path1"),
          ("pathData", AVal.p [[[(0, 0)]]]),
          ("strokeColor", AVal.s "#000000"), ("strokeWidth", AVal.s "1"),
          ("fillColor", AVal.s "#FFFFFF")] [],
        .mk "group" [("name", AVal.s "group2")]
          [.mk "group" [("name", AVal.s "group3")] []]]), 4) rfl,
   c7_unique_counter.2.2.2.2 bareRoot 2 c8node [] 5
     (.mk "path" [("name", AVal.s "path5"), ("pathData", AVal.p [[[(1, 2)]]]),
       ("strokeColor", AVal.s "#000000"), ("strokeWidth", AVal.s "1"),
       ("fillColor", AVal.s "#FFFFFF")] []) 6 rfl rfl⟩
